import Mathlib

/-!
Verification development for the VTU-FEST server repository.

The definitions below are a shallow embedding of the database tables and of the
request handlers that the claims are about:

* `src/routes/principal/final-approval.js` (the final-approval transaction),
* the `checkCollegeLock` middleware (unnamed part 001),
* the `assign-events` handler (unnamed part 005, action `add`),
* the student `submit-application.js` handler (action `finalize_application`).

Tables are modelled as Lean lists of records, one record per row.  Columns that
carry no control flow in any of the claims (denormalized display columns such
as names, phone numbers, USNs, document URLs, timestamps used only for display)
are elided; every column that is read by a `WHERE` clause, branched on, or
written by a claim-relevant statement is kept.  `ORDER BY id` retrieval is
modelled by keeping each table list sorted by its primary key, which is stated
as an explicit hypothesis (`TablesSorted`) where a claim depends on it.

Postgres transaction semantics are modelled explicitly: a handler first
produces a *plan* (the outcome it decided on, together with the list of write
statements of the attempt); `COMMIT` applies all writes to the durable state,
while `ROLLBACK` (issued by every error path and by the catch block of the
final-approval handler) discards the uncommitted view and keeps the durable
state unchanged.  `SERIALIZABLE` isolation justifies modelling any set of
concurrently committing transactions as a sequence (`runSeq`): every committed
concurrent history is equivalent to some serial one, and aborted attempts
leave the durable state unchanged.
-/

namespace VtuFest

/-- Row of the `colleges` table.  Display columns (`college_code`,
`college_name`, quota) and `final_approved_at` are elided. -/
structure College where
  id : Nat
  is_final_approved : Bool
  final_approved_by : Option Nat
  deriving DecidableEq, Repr

/-- Row of the `students` table.  Display columns are elided;
`reapply_count` is kept because `submit-application.js` branches on it. -/
structure Student where
  id : Nat
  college_id : Nat
  reapply_count : Nat
  deriving DecidableEq, Repr

/-- Row of the `student_applications` table.  Display columns
(blood group, address, department, year, semester) are elided. -/
structure Application where
  id : Nat
  student_id : Nat
  status : String
  deriving DecidableEq, Repr

/-- Row of the `application_documents` table (URL elided). -/
structure AppDocument where
  application_id : Nat
  document_type : String
  deriving DecidableEq, Repr

/-- Row of the `application_sessions` table.  `expires_at` is modelled as a
natural-number timestamp. -/
structure AppSession where
  session_id : String
  student_id : Nat
  college_id : Nat
  expires_at : Nat
  deriving DecidableEq, Repr

/-- Row of one of the 25 `event_*` tables.  `table_idx` records which of the
25 tables the row belongs to; exactly one of `student_id` / `accompanist_id`
is set according to `person_type`.  Display columns are elided. -/
structure EventAssignment where
  table_idx : Fin 25
  college_id : Nat
  person_type : String
  event_type : String
  student_id : Option Nat
  accompanist_id : Option Nat
  deriving DecidableEq, Repr

/-- Row of the `accompanists` table.  Display columns are elided. -/
structure Accompanist where
  id : Nat
  college_id : Nat
  student_id : Option Nat
  is_active : Bool
  deriving DecidableEq, Repr

/-- Row of the `qr_code_pool` table (`assigned_at` elided). -/
structure PoolEntry where
  id : Nat
  qr_code : Nat
  is_used : Bool
  assigned_to_person_id : Option Nat
  deriving DecidableEq, Repr

/-- Row of the `final_event_participants_master` table.  The denormalized
display columns copied at approval time are elided. -/
structure Participant where
  id : Nat
  college_id : Nat
  person_type : String
  student_id : Option Nat
  accompanist_id : Option Nat
  application_id : Option Nat
  qr_code : Nat
  final_approved_by : Nat
  deriving DecidableEq, Repr

/-- The database state.  The `next_*_id` counters model the serial primary-key
sequences used by `RETURNING id`. -/
structure DB where
  colleges : List College
  students : List Student
  applications : List Application
  application_documents : List AppDocument
  application_sessions : List AppSession
  events : List EventAssignment
  accompanists : List Accompanist
  qr_pool : List PoolEntry
  participants : List Participant
  next_participant_id : Nat
  next_application_id : Nat
  deriving DecidableEq, Repr

/-! ### STEP 2: eligibility query (final-approval.js lines 118-177) -/

/-- The disjunction of the 25 `EXISTS (SELECT 1 FROM event_... WHERE
student_id = s.id AND college_id = s.college_id)` clauses.  All 25 tables are
modelled by `db.events`, each row tagged with its table index. -/
def appearsInEventTables (db : DB) (s : Student) : Bool :=
  db.events.any (fun ev => ev.student_id == some s.id && ev.college_id == s.college_id)

/-- Rows of `student_applications` joined for a given student with
`status = APPROVED` (the `INNER JOIN ... WHERE sa.status = APPROVED`). -/
def approvedApplications (db : DB) (sid : Nat) : List Application :=
  db.applications.filter (fun sa => sa.student_id == sid && sa.status == "APPROVED")

/-- Result rows of the STEP 2 eligibility query: one row per (student,
approved application) pair, for students of the college that appear in at
least one of the 25 event tables, in `ORDER BY s.id` order. -/
def eligibleRows (db : DB) (cid : Nat) : List (Student × Application) :=
  (db.students.filter (fun s => s.college_id == cid && appearsInEventTables db s)).flatMap
    (fun s => (approvedApplications db s.id).map (fun sa => (s, sa)))

/-! ### STEP 3 and STEP 5 (final-approval.js lines 191-254) -/

/-- STEP 3: `SELECT ... FROM accompanists WHERE college_id = $1 AND
is_active = true ORDER BY a.id`. -/
def activeAccompanists (db : DB) (cid : Nat) : List Accompanist :=
  db.accompanists.filter (fun a => a.college_id == cid && a.is_active)

/-- STEP 5 duplicate test: the accompanist has a non-null `student_id` that is
already in the eligible-student id set. -/
def isDuplicateAccompanist (studentIds : List Nat) (a : Accompanist) : Bool :=
  match a.student_id with
  | none => false
  | some sid => studentIds.contains sid

/-- The `uniqueAccompanists` array of STEP 5: active accompanists whose
`student_id` is null or not among the eligible students. -/
def uniqueAccompanistsOf (db : DB) (cid : Nat) : List Accompanist :=
  (activeAccompanists db cid).filter
    (fun a => !(isDuplicateAccompanist ((eligibleRows db cid).map (fun r => r.1.id)) a))

/-- The `actual_total` of STEP 5. -/
def actualTotal (db : DB) (cid : Nat) : Nat :=
  (eligibleRows db cid).length + (uniqueAccompanistsOf db cid).length

/-! ### STEP 6: QR reservation (final-approval.js lines 262-270) -/

/-- Models `SELECT id, qr_code FROM qr_code_pool WHERE is_used = false ORDER BY id
FOR UPDATE SKIP LOCKED LIMIT n`.  In the serialized model no other transaction
holds row locks, so `SKIP LOCKED` skips nothing. -/
def reserveQrCodes (db : DB) (n : Nat) : List PoolEntry :=
  (db.qr_pool.filter (fun e => !e.is_used)).take n

/-! ### STEPs 7-8: participant inserts (final-approval.js lines 294-449) -/

/-- A person about to be inserted: an eligible-student row or a deduplicated
accompanist. -/
inductive Person where
  | student (s : Student) (sa : Application)
  | accompanist (a : Accompanist)
  deriving DecidableEq, Repr

/-- One `INSERT INTO final_event_participants_master ... RETURNING id`,
with values per the STUDENT branch (STEP 7) or the ACCOMPANIST branch
(STEP 8). -/
def mkParticipant (cid prn pid : Nat) (p : Person) (code : Nat) : Participant :=
  match p with
  | .student s sa =>
      { id := pid, college_id := cid, person_type := "STUDENT",
        student_id := some s.id, accompanist_id := none,
        application_id := some sa.id, qr_code := code, final_approved_by := prn }
  | .accompanist a =>
      { id := pid, college_id := cid, person_type := "ACCOMPANIST",
        student_id := a.student_id, accompanist_id := some a.id,
        application_id := none, qr_code := code, final_approved_by := prn }

/-- The two insert loops of STEPs 7-8: walk the persons and the reserved
entries in lockstep (`reserved_qr_codes[qr_index++]`), producing the inserted
participant rows and the `qr_pool_ids` list of `(pool_id, participant_id)`
pairs.  `pid` is the next value of the participant-id sequence. -/
def insertLoop (cid prn : Nat) : Nat → List Person → List PoolEntry →
    List Participant × List (Nat × Nat)
  | _, [], _ => ([], [])
  | _, _ :: _, [] => ([], [])
  | pid, p :: ps, e :: es =>
      let rest := insertLoop cid prn (pid + 1) ps es
      (mkParticipant cid prn pid p e.qr_code :: rest.1, (e.id, pid) :: rest.2)

/-! ### STEP 9: batch pool update (final-approval.js lines 460-475) -/

/-- Models `UPDATE qr_code_pool SET is_used = true, assigned_to_person_id = CASE id
WHEN pool_id THEN participant_id ... END WHERE id = ANY(poolIds)`: every row
whose id is a key of `mapping` is marked used and assigned the corresponding
participant id; other rows are untouched. -/
def markUsed (pool : List PoolEntry) (mapping : List (Nat × Nat)) : List PoolEntry :=
  pool.map (fun e =>
    match mapping.lookup e.id with
    | some pid => { e with is_used := true, assigned_to_person_id := some pid }
    | none => e)

/-! ### STEP 10: college lock update (final-approval.js lines 483-491) -/

/-- Models `UPDATE colleges SET is_final_approved = true, final_approved_by = $1
WHERE id = $2`. -/
def setApproved (colleges : List College) (cid prn : Nat) : List College :=
  colleges.map (fun c =>
    if c.id == cid then { c with is_final_approved := true, final_approved_by := some prn }
    else c)

/-! ### The final-approval transaction -/

/-- Outcomes of the final-approval handler (the distinct JSON responses). -/
inductive ApprovalResult where
  | collegeNotFound
  | alreadyApproved
  | noEligibleParticipants
  | poolExhausted (needed available : Nat)
  | success (inserted_students inserted_accompanists duplicates_removed : Nat)
  deriving DecidableEq, Repr

/-- One participant `INSERT ... RETURNING id` as a write statement: appends
the row and advances the primary-key sequence. -/
def insertWrite (q : Participant) : DB → DB := fun d =>
  { d with participants := d.participants ++ [q],
           next_participant_id := d.next_participant_id + 1 }

/-- The STEP 9 batch update as a write statement. -/
def poolWrite (mapping : List (Nat × Nat)) : DB → DB := fun d =>
  { d with qr_pool := markUsed d.qr_pool mapping }

/-- The STEP 10 college update as a write statement. -/
def collegeWrite (cid prn : Nat) : DB → DB := fun d =>
  { d with colleges := setApproved d.colleges cid prn }

/-- The order in which the success path walks the persons: STEP 7 inserts the
eligible-student rows, then STEP 8 inserts the deduplicated accompanists. -/
def successPersons (db : DB) (cid : Nat) : List Person :=
  (eligibleRows db cid).map (fun r => Person.student r.1 r.2)
    ++ (uniqueAccompanistsOf db cid).map Person.accompanist

/-- The participant rows and the `qr_pool_ids` mapping produced by the two
insert loops on the success path. -/
def successInsert (db : DB) (cid prn : Nat) : List Participant × List (Nat × Nat) :=
  insertLoop cid prn db.next_participant_id (successPersons db cid)
    (reserveQrCodes db (actualTotal db cid))

/-- The participant rows inserted on the success path. -/
def successParts (db : DB) (cid prn : Nat) : List Participant :=
  (successInsert db cid prn).1

/-- The `qr_pool_ids` list of `(pool_id, participant_id)` pairs collected on
the success path and used by the STEP 9 batch update. -/
def successMapping (db : DB) (cid prn : Nat) : List (Nat × Nat) :=
  (successInsert db cid prn).2

/-- The decision part of the final-approval transaction: reproduces STEPs 1-6
of `final-approval.js` and, on the success path, the write statements of
STEPs 7-10 in program order.  Every abort path of the source issues
`ROLLBACK`, hence contributes no writes. -/
def planFinalApproval (db : DB) (cid prn : Nat) : ApprovalResult × List (DB → DB) :=
  match db.colleges.find? (fun c => c.id == cid) with
  | none => (.collegeNotFound, [])
  | some college =>
    if college.is_final_approved then (.alreadyApproved, [])
    else if (eligibleRows db cid).length + (activeAccompanists db cid).length == 0 then
      (.noEligibleParticipants, [])
    else if (reserveQrCodes db (actualTotal db cid)).length < actualTotal db cid then
      (.poolExhausted (actualTotal db cid) (reserveQrCodes db (actualTotal db cid)).length, [])
    else
      (.success (eligibleRows db cid).length (uniqueAccompanistsOf db cid).length
          ((activeAccompanists db cid).length - (uniqueAccompanistsOf db cid).length),
       (successParts db cid prn).map insertWrite ++
         [poolWrite (successMapping db cid prn), collegeWrite cid prn])

/-- Apply a list of write statements in order. -/
def applyWrites (db : DB) (ws : List (DB → DB)) : DB := ws.foldl (fun d w => w d) db

/-- The complete final-approval request: the transaction runs to the end and
commits (all writes become durable); abort paths have no writes, so the
durable state is unchanged there. -/
def finalApproval (db : DB) (cid prn : Nat) : ApprovalResult × DB :=
  ((planFinalApproval db cid prn).1, applyWrites db (planFinalApproval db cid prn).2)

/-- SQL `ROLLBACK`: the uncommitted transaction view is discarded; the durable
state is kept. -/
def rollbackTx (durable : DB) (uncommitted : DB) : DB := durable

/-- A final-approval attempt in which the database client throws after the
first `k` write statements and before `COMMIT`: the catch block
(final-approval.js lines 529-544) issues `ROLLBACK` before responding, so the
uncommitted view (which may hold partial participant inserts) is discarded. -/
def finalApprovalInterrupted (db : DB) (cid prn k : Nat) : DB :=
  rollbackTx db (applyWrites db ((planFinalApproval db cid prn).2.take k))

/-- What the client sees when the 9-second timer fires. -/
inductive ClientResponse where
  | timeout504
  | normal (r : ApprovalResult)
  deriving DecidableEq, Repr

/-- A final-approval attempt in which the 9-second request timer
(final-approval.js lines 32-46) fires while the transaction is still in
flight.  The timer callback only sends a 504 response (`res.status(504)`); it
performs no database action whatsoever, and the transaction continues to
completion independently of the already-sent response. -/
def finalApprovalTimedOut (db : DB) (cid prn : Nat) : ClientResponse × DB :=
  (.timeout504, (finalApproval db cid prn).2)

/-- A serialized history of final-approval attempts: completed requests and
interrupted (rolled-back) attempts, in commit order. -/
inductive Op where
  | run (cid prn : Nat)
  | interrupted (cid prn k : Nat)
  deriving DecidableEq, Repr

/-- Effect of one attempt on the durable state. -/
def applyOp (db : DB) : Op → DB
  | .run cid prn => (finalApproval db cid prn).2
  | .interrupted cid prn k => finalApprovalInterrupted db cid prn k

/-- Durable state after a serialized history of attempts.  `SERIALIZABLE`
isolation plus rollback-on-conflict means every concurrent history the
database commits is equivalent to such a sequence. -/
def runSeq (db : DB) (ops : List Op) : DB := ops.foldl applyOp db

/-! ### The `checkCollegeLock` middleware (unnamed part 001) -/

/-- The authenticated user object placed on the request by the auth
middleware.  `college_id = none` models a JS-falsy `college_id`
(null, undefined or 0). -/
structure AuthUser where
  id : Nat
  role : String
  college_id : Option Nat
  deriving DecidableEq, Repr

/-- Outcome of an Express middleware: either a response is sent with the given
status, or `next()` is invoked. -/
inductive MwResult where
  | respond (status : Nat)
  | next
  deriving DecidableEq, Repr

/-- The `checkCollegeLock` middleware.  Returns the outcome together with a
Bool recording whether the `colleges` table was queried at all. -/
def checkCollegeLock (user : Option AuthUser) (colleges : List College) : MwResult × Bool :=
  match user with
  | none => (.respond 401, false)
  | some u =>
    if u.role == "ADMIN" || u.role == "SUB_ADMIN" then (.next, false)
    else match u.college_id with
    | none => (.respond 400, false)
    | some cid =>
      match colleges.find? (fun c => c.id == cid) with
      | none => (.respond 404, true)
      | some c =>
        if c.is_final_approved then (.respond 403, true) else (.next, true)

/-! ### The `assign-events` handler, action `add` (unnamed part 005) -/

/-- The `EVENT_TABLES` slug enumeration, mapping each of the 25 request slugs
to the index of its event table.  Table indices follow the order of the 25
`EXISTS` clauses in the final-approval eligibility query. -/
def eventSlugs : List (String × Fin 25) :=
  [("mime", 10), ("mimicry", 11), ("one_act_play", 12), ("skits", 13),
   ("debate", 14), ("elocution", 15), ("quiz", 16), ("cartooning", 17),
   ("clay_modelling", 18), ("collage_making", 19), ("installation", 20),
   ("on_spot_painting", 21), ("poster_making", 22), ("rangoli", 23),
   ("spot_photography", 24), ("classical_vocal_solo", 0),
   ("classical_instrumental_percussion", 3),
   ("classical_instrumental_non_percussion", 4), ("light_vocal_solo", 1),
   ("western_vocal_solo", 2), ("group_song_indian", 5),
   ("group_song_western", 6), ("folk_orchestra", 7), ("folk_tribal_dance", 9),
   ("classical_dance_solo", 8)]

/-- Body of an `action: add` request. `person_id = 0` and empty strings model
JS-falsy (missing) fields. -/
structure AssignRequest where
  event_slug : String
  person_id : Nat
  person_type : String
  event_type : String
  deriving DecidableEq, Repr

/-- Response kinds of the assign-events handler (`utils/response` helpers). -/
inductive ApiResult where
  | validationErr (msg : String)
  | err (status : Nat) (msg : String)
  | created
  | serverErr
  deriving DecidableEq, Repr

/-- The `action: add` branch of the assign-events handler.  `college_id` comes
from the authenticated user.  Note that the lock check reads
`lockCheck.rows[0].is_final_approved` without a row-count check, so a missing
college row makes the handler throw (caught as a 500). -/
def assignEventsAdd (db : DB) (college_id : Nat) (req : AssignRequest) : ApiResult × DB :=
  match (eventSlugs.lookup req.event_slug : Option (Fin 25)) with
  | none => (.validationErr "Invalid or missing event_slug", db)
  | some t =>
    if req.person_id == 0 || req.person_type == "" || req.event_type == "" then
      (.validationErr "person_id, person_type, and event_type are required", db)
    else if !(req.person_type == "student" || req.person_type == "accompanist") then
      (.validationErr "person_type must be student or accompanist", db)
    else if !(req.event_type == "PARTICIPANT" || req.event_type == "ACCOMPANIST") then
      (.validationErr "event_type must be PARTICIPANT or ACCOMPANIST", db)
    else if req.person_type == "accompanist" && req.event_type == "PARTICIPANT" then
      (.validationErr "Accompanists cannot be participants", db)
    else
      match db.colleges.find? (fun c => c.id == college_id) with
      | none => (.serverErr, db)
      | some c =>
        if c.is_final_approved then
          (.err 403 "College has final approval. Cannot modify assignments.", db)
        else
          let personCheck : Option Unit :=
            if req.person_type == "student" then
              match db.students.find? (fun s => s.id == req.person_id &&
                  s.college_id == college_id) with
              | none => none
              | some _ =>
                match db.applications.find? (fun sa => sa.student_id == req.person_id) with
                | none => none
                | some sa => if sa.status == "APPROVED" then some () else none
            else
              match db.accompanists.find? (fun a => a.id == req.person_id &&
                  a.college_id == college_id) with
              | none => none
              | some _ => some ()
          match personCheck with
          | none => (.err 404 "Person not found or not approved", db)
          | some _ =>
            let already := db.events.any (fun ev =>
              ev.table_idx == t && ev.college_id == college_id &&
              ev.person_type == req.person_type &&
              (if req.person_type == "student" then ev.student_id == some req.person_id
               else ev.accompanist_id == some req.person_id))
            if already then (.err 409 "Person already assigned to this event", db)
            else
              let row : EventAssignment :=
                if req.person_type == "student" then
                  { table_idx := t, college_id := college_id,
                    person_type := req.person_type, event_type := req.event_type,
                    student_id := some req.person_id, accompanist_id := none }
                else
                  { table_idx := t, college_id := college_id,
                    person_type := req.person_type, event_type := req.event_type,
                    student_id := none, accompanist_id := some req.person_id }
              (.created, { db with events := db.events ++ [row] })

/-! ### The `submit-application` handler, action `finalize_application`
(src/routes/student/submit-application.js, second revision, lines 458-879) -/

/-- Result of the external blob-store checks performed before the insert: for
each of the three documents, whether `blobExists` succeeded and whether the
blob size is within the 5MB limit. -/
structure UploadState where
  college_id_card_uploaded : Bool
  aadhaar_uploaded : Bool
  marks_card_uploaded : Bool
  college_id_card_size_ok : Bool
  aadhaar_size_ok : Bool
  marks_card_size_ok : Bool
  deriving DecidableEq, Repr

/-- Response kinds of the submit-application handler. -/
inductive SubmitResult where
  | badRequest (msg : String)
  | forbidden
  | serverError
  | ok (application_id : Nat) (is_reapply : Bool)
  deriving DecidableEq, Repr

/-- Models `SELECT id, status FROM student_applications WHERE student_id = $1
ORDER BY id DESC LIMIT 1`: the row with the largest id. -/
def latestApplication (db : DB) (sid : Nat) : Option Application :=
  (db.applications.filter (fun sa => sa.student_id == sid)).foldl
    (fun acc sa =>
      match acc with
      | none => some sa
      | some m => if m.id < sa.id then some sa else some m) none

/-- The committed writes of a successful `finalize_application`: one new
`student_applications` row with status PENDING, the reapply-count bump on
reapply, the three `application_documents` rows, and (after the commit) the
deletion of the session row. -/
def commitNewApplication (db : DB) (sid : Nat) (session_id : String)
    (is_reapply : Bool) : DB :=
  let aid := db.next_application_id
  { db with
      applications := db.applications ++ [{ id := aid, student_id := sid, status := "PENDING" }],
      next_application_id := aid + 1,
      students :=
        if is_reapply then
          db.students.map (fun s =>
            if s.id == sid then { s with reapply_count := s.reapply_count + 1 } else s)
        else db.students,
      application_documents := db.application_documents ++
        [{ application_id := aid, document_type := "college_id_card" },
         { application_id := aid, document_type := "aadhaar" },
         { application_id := aid, document_type := "sslc" }],
      application_sessions :=
        db.application_sessions.filter (fun s2 => !(s2.session_id == session_id)) }

/-- The `action: finalize_application` branch of the submit-application
handler.  `student_id`/`college_id` come from the token (`0` models a JS-falsy
value, rejected up front); `now` is the wall clock used for the session-expiry
comparison; `up` is the state of the external blob store.  Note that no branch
of this handler reads `is_final_approved`. -/
def finalizeApplication (db : DB) (student_id college_id : Nat) (session_id : String)
    (now : Nat) (up : UploadState) : SubmitResult × DB :=
  if student_id == 0 || college_id == 0 then (.badRequest "Invalid token", db)
  else if session_id == "" then (.badRequest "session_id is required", db)
  else
    match db.application_sessions.find? (fun ss => ss.session_id == session_id) with
    | none => (.badRequest "Invalid or expired session", db)
    | some ss =>
      if ss.student_id != student_id then (.forbidden, db)
      else if ss.expires_at < now then
        (.badRequest "Session has expired",
         { db with application_sessions :=
            db.application_sessions.filter (fun s2 => !(s2.session_id == session_id)) })
      else
        match db.students.find? (fun s => s.id == student_id) with
        | none => (.serverError, db)
        | some student =>
          match db.colleges.find? (fun c => c.id == college_id) with
          | none => (.serverError, db)
          | some _ =>
            if !up.college_id_card_uploaded then (.badRequest "College ID card not uploaded", db)
            else if !up.aadhaar_uploaded then (.badRequest "Aadhaar not uploaded", db)
            else if !up.marks_card_uploaded then (.badRequest "10th marks card not uploaded", db)
            else if !up.college_id_card_size_ok then (.badRequest "College ID card exceeds 5MB limit", db)
            else if !up.aadhaar_size_ok then (.badRequest "Aadhaar exceeds 5MB limit", db)
            else if !up.marks_card_size_ok then (.badRequest "10th marks card exceeds 5MB limit", db)
            else
              match latestApplication db student_id with
              | some app =>
                if app.status == "APPROVED" then
                  (.badRequest "Application already approved. Cannot resubmit.", db)
                else if app.status == "PENDING" then
                  (.badRequest "Application already pending. Cannot submit again.", db)
                else if app.status == "REJECTED" then
                  if 1 ≤ student.reapply_count then
                    (.badRequest "Reapplication limit reached. You can only reapply once.", db)
                  else
                    (.ok db.next_application_id true,
                     commitNewApplication db student_id session_id true)
                else
                  (.serverError, db)
              | none =>
                (.ok db.next_application_id false,
                 commitNewApplication db student_id session_id false)

/-- The durable state after a committed successful run, in closed form. -/
def successDB (db : DB) (cid prn : Nat) : DB :=
  { db with
      participants := db.participants ++ successParts db cid prn,
      next_participant_id := db.next_participant_id + (successParts db cid prn).length,
      qr_pool := markUsed db.qr_pool (successMapping db cid prn),
      colleges := setApproved db.colleges cid prn }

/-- The claim-relevant identity fields of an inserted participant row. -/
def personFields (q : Participant) : String × Option Nat × Option Nat × Option Nat :=
  (q.person_type, q.student_id, q.accompanist_id, q.application_id)

/-- The identity fields that `mkParticipant` writes for each person kind. -/
def personView : Person → String × Option Nat × Option Nat × Option Nat
  | .student s sa => ("STUDENT", some s.id, none, some sa.id)
  | .accompanist a => ("ACCOMPANIST", a.student_id, some a.id, none)

/-- Well-formedness of the QR pool and of the participant table:
primary keys and code values are unique (both columns are unique in the
schema), rows not yet used are not yet assigned, no two participant rows
carry the same code, and every participant code stems from a used pool
entry. -/
def PoolWF (db : DB) : Prop :=
  (db.qr_pool.map (fun e => e.id)).Nodup ∧
  (db.qr_pool.map (fun e => e.qr_code)).Nodup ∧
  (∀ e ∈ db.qr_pool, e.is_used = false → e.assigned_to_person_id = none) ∧
  (db.participants.map (fun q => q.qr_code)).Nodup ∧
  (∀ q ∈ db.participants, ∃ e ∈ db.qr_pool, e.qr_code = q.qr_code ∧ e.is_used = true)

instance (db : DB) : Decidable (PoolWF db) := by
  unfold PoolWF; infer_instance


/-! ### Well-formedness predicates -/

/-- Primary-key columns are unique and rows are retrieved in ascending id
order (`ORDER BY id`): each table list is strictly sorted by id. -/
def TablesSorted (db : DB) : Prop :=
  (db.students.map (fun s => s.id)).Pairwise (fun x y => x < y) ∧
  (db.applications.map (fun sa => sa.id)).Pairwise (fun x y => x < y) ∧
  (db.accompanists.map (fun a => a.id)).Pairwise (fun x y => x < y) ∧
  (db.qr_pool.map (fun e => e.id)).Pairwise (fun x y => x < y)

/-- At most one APPROVED application row per student.  This is the reachable
state of the submission workflow: a student can only submit when their latest
application is absent or REJECTED, and only the latest application is ever
moved to APPROVED. -/
def ApprovedAppUnique (db : DB) : Prop :=
  ∀ a₁ ∈ db.applications, ∀ a₂ ∈ db.applications,
    a₁.status = "APPROVED" → a₂.status = "APPROVED" →
      a₁.student_id = a₂.student_id → a₁ = a₂

instance (db : DB) : Decidable (TablesSorted db) := by
  unfold TablesSorted; infer_instance

instance (db : DB) : Decidable (ApprovedAppUnique db) := by
  unfold ApprovedAppUnique; infer_instance

/-! ### Concrete databases used by the witnesses -/

/-- A one-row event-table assignment placing a student in table 0
(classical vocal solo) of college 1. -/
def evRow (sid : Nat) : EventAssignment :=
  { table_idx := 0, college_id := 1, person_type := "student",
    event_type := "PARTICIPANT", student_id := some sid, accompanist_id := none }

/-- A small database on which a final-approval run succeeds: college 1 has
three approved students of which two are event-assigned, one accompanist who
is also eligible student 2 (a duplicate) and one plain accompanist, and four
unused pool entries. -/
def sampleDB : DB :=
  { colleges := [{ id := 1, is_final_approved := false, final_approved_by := none }],
    students := [{ id := 1, college_id := 1, reapply_count := 0 },
                 { id := 2, college_id := 1, reapply_count := 0 },
                 { id := 3, college_id := 1, reapply_count := 0 }],
    applications := [{ id := 1, student_id := 1, status := "APPROVED" },
                     { id := 2, student_id := 2, status := "APPROVED" },
                     { id := 3, student_id := 3, status := "APPROVED" }],
    application_documents := [], application_sessions := [],
    events := [evRow 1, evRow 2],
    accompanists := [{ id := 1, college_id := 1, student_id := some 2, is_active := true },
                     { id := 2, college_id := 1, student_id := none, is_active := true }],
    qr_pool := [{ id := 1, qr_code := 101, is_used := false, assigned_to_person_id := none },
                { id := 2, qr_code := 102, is_used := false, assigned_to_person_id := none },
                { id := 3, qr_code := 103, is_used := false, assigned_to_person_id := none },
                { id := 4, qr_code := 104, is_used := false, assigned_to_person_id := none }],
    participants := [], next_participant_id := 10, next_application_id := 4 }

/-- A database whose pool is exhausted: college 1 needs one code for its one
active accompanist, but the only pool entry is already used. -/
def exhaustedDB : DB :=
  { colleges := [{ id := 1, is_final_approved := false, final_approved_by := none }],
    students := [], applications := [], application_documents := [],
    application_sessions := [], events := [],
    accompanists := [{ id := 1, college_id := 1, student_id := none, is_active := true }],
    qr_pool := [{ id := 1, qr_code := 101, is_used := true, assigned_to_person_id := some 77 }],
    participants := [], next_participant_id := 10, next_application_id := 1 }

/-- A database whose college 1 is already final-approved (locked), with a
student holding a live application session and no application yet. -/
def lockedDB : DB :=
  { colleges := [{ id := 1, is_final_approved := true, final_approved_by := some 9 }],
    students := [{ id := 1, college_id := 1, reapply_count := 0 }],
    applications := [], application_documents := [],
    application_sessions := [{ session_id := "s1", student_id := 1, college_id := 1,
                               expires_at := 100 }],
    events := [], accompanists := [], qr_pool := [],
    participants := [], next_participant_id := 1, next_application_id := 1 }

/-- Blob-store state in which all three documents are uploaded and within the
size limit. -/
def uploadsOk : UploadState :=
  { college_id_card_uploaded := true, aadhaar_uploaded := true,
    marks_card_uploaded := true, college_id_card_size_ok := true,
    aadhaar_size_ok := true, marks_card_size_ok := true }

/-! ## Structural lemmas about the final-approval transaction -/

theorem applyWrites_append (db : DB) (ws₁ ws₂ : List (DB → DB)) :
    applyWrites db (ws₁ ++ ws₂) = applyWrites (applyWrites db ws₁) ws₂ := by
  simp [applyWrites, List.foldl_append]

theorem applyWrites_insertWrites (parts : List Participant) (db : DB) :
    applyWrites db (parts.map insertWrite) =
      { db with participants := db.participants ++ parts,
                next_participant_id := db.next_participant_id + parts.length } := by
  induction parts generalizing db with
  | nil => simp [applyWrites]
  | cons p ps ih =>
      simp only [List.map_cons, applyWrites, List.foldl_cons]
      rw [show (List.foldl (fun d w => w d) (insertWrite p db) (ps.map insertWrite)) =
            applyWrites (insertWrite p db) (ps.map insertWrite) from rfl, ih]
      simp [insertWrite, Nat.add_assoc, Nat.add_comm 1]

/-- Inversion of the plan on a success result: the guards of STEPs 1-6 all
passed and the response counts are the lengths of the query results. -/
theorem plan_guards_of_success (db : DB) (cid prn a b c : Nat)
    (h : (planFinalApproval db cid prn).1 = .success a b c) :
    (∃ college, db.colleges.find? (fun c => c.id == cid) = some college ∧
        college.is_final_approved = false) ∧
      (eligibleRows db cid).length + (activeAccompanists db cid).length ≠ 0 ∧
      ¬ ((reserveQrCodes db (actualTotal db cid)).length < actualTotal db cid) ∧
      a = (eligibleRows db cid).length ∧
      b = (uniqueAccompanistsOf db cid).length ∧
      c = (activeAccompanists db cid).length - (uniqueAccompanistsOf db cid).length := by
  unfold planFinalApproval at h
  split at h
  · exact absurd h (by simp)
  · rename_i college hf
    split at h
    · exact absurd h (by simp)
    · rename_i hflag
      split at h
      · exact absurd h (by simp)
      · rename_i hzero
        split at h
        · exact absurd h (by simp)
        · rename_i hlt
          simp only [ApprovalResult.success.injEq] at h
          exact ⟨⟨college, hf, by simpa using hflag⟩, by simpa using hzero, hlt,
            h.1.symm, h.2.1.symm, h.2.2.symm⟩

/-- The plan, in closed form, when all guards pass. -/
theorem plan_eq_success (db : DB) (cid prn : Nat) (college : College)
    (hf : db.colleges.find? (fun c => c.id == cid) = some college)
    (hflag : college.is_final_approved = false)
    (hzero : (eligibleRows db cid).length + (activeAccompanists db cid).length ≠ 0)
    (hlt : ¬ ((reserveQrCodes db (actualTotal db cid)).length < actualTotal db cid)) :
    planFinalApproval db cid prn =
      (.success (eligibleRows db cid).length (uniqueAccompanistsOf db cid).length
          ((activeAccompanists db cid).length - (uniqueAccompanistsOf db cid).length),
       (successParts db cid prn).map insertWrite ++
         [poolWrite (successMapping db cid prn), collegeWrite cid prn]) := by
  unfold planFinalApproval
  rw [hf]
  simp [hflag, hzero, hlt]

/-- The durable state after a successful run is `successDB`. -/
theorem finalApproval_success_db (db : DB) (cid prn a b c : Nat)
    (h : (finalApproval db cid prn).1 = .success a b c) :
    (finalApproval db cid prn).2 = successDB db cid prn := by
  obtain ⟨⟨college, hf, hflag⟩, hzero, hlt, _, _, _⟩ :=
    plan_guards_of_success db cid prn a b c h
  have hp := plan_eq_success db cid prn college hf hflag hzero hlt
  show applyWrites db (planFinalApproval db cid prn).2 = _
  rw [hp, applyWrites_append, applyWrites_insertWrites]
  simp [applyWrites, poolWrite, collegeWrite, successDB]

/-- Each abort path of the transaction contributes no writes. -/
theorem plan_snd_cases (db : DB) (cid prn : Nat) :
    (planFinalApproval db cid prn).2 = [] ∨
      (planFinalApproval db cid prn).2 =
        (successParts db cid prn).map insertWrite ++
          [poolWrite (successMapping db cid prn), collegeWrite cid prn] := by
  unfold planFinalApproval
  split
  · left; rfl
  · split
    · left; rfl
    · split
      · left; rfl
      · split
        · left; rfl
        · right; rfl

/-- A run either leaves the durable state unchanged (abort) or produces
`successDB` (commit). -/
theorem finalApproval_snd_cases (db : DB) (cid prn : Nat) :
    (finalApproval db cid prn).2 = db ∨ (finalApproval db cid prn).2 = successDB db cid prn := by
  show applyWrites db (planFinalApproval db cid prn).2 = db ∨ _
  rcases plan_snd_cases db cid prn with h | h
  · left; rw [h]; rfl
  · right
    show applyWrites db (planFinalApproval db cid prn).2 = _
    rw [h, applyWrites_append, applyWrites_insertWrites]
    simp [applyWrites, poolWrite, collegeWrite, successDB]

/-- STEP 1 guard: an already-approved college aborts the run with no change. -/
theorem finalApproval_alreadyApproved (db : DB) (cid prn : Nat) (college : College)
    (hf : db.colleges.find? (fun c => c.id == cid) = some college)
    (hflag : college.is_final_approved = true) :
    finalApproval db cid prn = (.alreadyApproved, db) := by
  unfold finalApproval planFinalApproval
  rw [hf]
  simp [hflag, applyWrites]

/-- STEP 6 guard: an exhausted pool aborts the run with no change, reporting
the needed and available counts. -/
theorem finalApproval_poolExhausted (db : DB) (cid prn : Nat) (college : College)
    (hf : db.colleges.find? (fun c => c.id == cid) = some college)
    (hflag : college.is_final_approved = false)
    (hzero : (eligibleRows db cid).length + (activeAccompanists db cid).length ≠ 0)
    (hexh : (reserveQrCodes db (actualTotal db cid)).length < actualTotal db cid) :
    finalApproval db cid prn =
      (.poolExhausted (actualTotal db cid) (reserveQrCodes db (actualTotal db cid)).length,
       db) := by
  unfold finalApproval planFinalApproval
  rw [hf]
  simp [hflag, hzero, hexh, applyWrites]

/-! ## Closed forms for the insert loops -/

theorem insertLoop_fst_length (cid prn : Nat) (ps : List Person) (es : List PoolEntry)
    (pid : Nat) :
    (insertLoop cid prn pid ps es).1.length = min ps.length es.length := by
  induction ps generalizing pid es with
  | nil => simp [insertLoop]
  | cons p ps ih =>
      cases es with
      | nil => simp [insertLoop]
      | cons e es => simp [insertLoop, ih, Nat.succ_min_succ]

theorem insertLoop_fst_map_qr (cid prn : Nat) (ps : List Person) (es : List PoolEntry)
    (pid : Nat) :
    (insertLoop cid prn pid ps es).1.map (fun q => q.qr_code) =
      (es.take ps.length).map (fun e => e.qr_code) := by
  induction ps generalizing pid es with
  | nil => simp [insertLoop]
  | cons p ps ih =>
      cases es with
      | nil => simp [insertLoop]
      | cons e es => cases p <;> simp [insertLoop, mkParticipant, ih]

theorem insertLoop_fst_map_id (cid prn : Nat) (ps : List Person) (es : List PoolEntry)
    (pid : Nat) :
    (insertLoop cid prn pid ps es).1.map (fun q => q.id) =
      List.range' pid (min ps.length es.length) := by
  induction ps generalizing pid es with
  | nil => simp [insertLoop]
  | cons p ps ih =>
      cases es with
      | nil => simp [insertLoop]
      | cons e es =>
          cases p <;>
            simp [insertLoop, mkParticipant, ih, Nat.succ_min_succ, List.range'_succ]

theorem insertLoop_snd_eq (cid prn : Nat) (ps : List Person) (es : List PoolEntry)
    (pid : Nat) :
    (insertLoop cid prn pid ps es).2 =
      ((es.take ps.length).map (fun e => e.id)).zip
        (List.range' pid (min ps.length es.length)) := by
  induction ps generalizing pid es with
  | nil => simp [insertLoop]
  | cons p ps ih =>
      cases es with
      | nil => simp [insertLoop]
      | cons e es =>
          simp [insertLoop, ih, Nat.succ_min_succ, List.range'_succ]

theorem insertLoop_fst_map_person (cid prn : Nat) (ps : List Person) (es : List PoolEntry)
    (pid : Nat) :
    (insertLoop cid prn pid ps es).1.map personFields = (ps.take es.length).map personView := by
  induction ps generalizing pid es with
  | nil => simp [insertLoop]
  | cons p ps ih =>
      cases es with
      | nil => simp [insertLoop]
      | cons e es =>
          cases p <;> simp [insertLoop, mkParticipant, personFields, personView, ih]

/-! ## Association-list and batch-update lemmas -/

theorem lookup_eq_none_of_not_mem {β : Type} (m : List (Nat × β)) (k : Nat)
    (h : k ∉ m.map Prod.fst) : m.lookup k = none := by
  induction m with
  | nil => rfl
  | cons kv m ih =>
      obtain ⟨k₁, v⟩ := kv
      simp only [List.map_cons, List.mem_cons, not_or] at h
      simp [List.lookup, beq_eq_false_iff_ne.2 h.1, ih h.2]

theorem lookup_isSome_of_mem {β : Type} (m : List (Nat × β)) (k : Nat)
    (h : k ∈ m.map Prod.fst) : (m.lookup k).isSome := by
  induction m with
  | nil => simp at h
  | cons kv m ih =>
      obtain ⟨k₁, v⟩ := kv
      rcases List.mem_cons.1 h with h1 | h2
      · simp at h1; simp [List.lookup, h1]
      · by_cases hk : k = k₁
        · simp [List.lookup, hk]
        · simp [List.lookup, beq_eq_false_iff_ne.2 hk, ih h2]

theorem markUsed_map_id (pool : List PoolEntry) (m : List (Nat × Nat)) :
    (markUsed pool m).map (fun e => e.id) = pool.map (fun e => e.id) := by
  unfold markUsed
  rw [List.map_map]
  apply List.map_congr_left
  intro e _
  simp only [Function.comp_apply]
  cases m.lookup e.id <;> rfl

theorem markUsed_map_qr (pool : List PoolEntry) (m : List (Nat × Nat)) :
    (markUsed pool m).map (fun e => e.qr_code) = pool.map (fun e => e.qr_code) := by
  unfold markUsed
  rw [List.map_map]
  apply List.map_congr_left
  intro e _
  simp only [Function.comp_apply]
  cases m.lookup e.id <;> rfl

/-- A row whose id is not a key of the batch update is untouched. -/
theorem markUsed_not_hit (pool : List PoolEntry) (m : List (Nat × Nat)) (e : PoolEntry)
    (he : e ∈ pool) (hk : m.lookup e.id = none) : e ∈ markUsed pool m := by
  unfold markUsed
  exact List.mem_map.2 ⟨e, he, by rw [hk]⟩

/-- A row whose id is a key of the batch update is marked used and assigned. -/
theorem markUsed_hit (pool : List PoolEntry) (m : List (Nat × Nat)) (e : PoolEntry)
    (pid : Nat) (he : e ∈ pool) (hk : m.lookup e.id = some pid) :
    { e with is_used := true, assigned_to_person_id := some pid } ∈ markUsed pool m := by
  unfold markUsed
  exact List.mem_map.2 ⟨e, he, by rw [hk]⟩

/-- Every row of the updated pool is either an untouched old row or an
updated old row. -/
theorem mem_markUsed (pool : List PoolEntry) (m : List (Nat × Nat)) (x : PoolEntry)
    (hx : x ∈ markUsed pool m) :
    ∃ e ∈ pool, (m.lookup e.id = none ∧ x = e) ∨
      ∃ pid, m.lookup e.id = some pid ∧
        x = { e with is_used := true, assigned_to_person_id := some pid } := by
  unfold markUsed at hx
  obtain ⟨e, he, hxe⟩ := List.mem_map.1 hx
  refine ⟨e, he, ?_⟩
  cases hk : m.lookup e.id with
  | none => rw [hk] at hxe; exact Or.inl ⟨rfl, hxe.symm⟩
  | some pid => rw [hk] at hxe; exact Or.inr ⟨pid, rfl, hxe.symm⟩

/-! ## The pool invariant (claim C1) -/

theorem reserveQrCodes_sublist (db : DB) (n : Nat) :
    List.Sublist (reserveQrCodes db n) db.qr_pool :=
  (List.take_sublist _ _).trans (List.filter_sublist _)

theorem mem_reserveQrCodes (db : DB) (n : Nat) (r : PoolEntry)
    (hr : r ∈ reserveQrCodes db n) : r ∈ db.qr_pool ∧ r.is_used = false := by
  have h1 : r ∈ db.qr_pool.filter (fun e => !e.is_used) :=
    List.take_subset _ _ hr
  have h2 := List.mem_filter.1 h1
  exact ⟨h2.1, by simpa using h2.2⟩

/-- The keys of the `qr_pool_ids` mapping are the ids of the reserved rows
consumed by the insert loops. -/
theorem successMapping_keys (db : DB) (cid prn : Nat) :
    (successMapping db cid prn).map Prod.fst =
      ((reserveQrCodes db (actualTotal db cid)).take (successPersons db cid).length).map
        (fun e => e.id) := by
  unfold successMapping successInsert
  rw [insertLoop_snd_eq]
  apply List.map_fst_zip
  simp [List.length_take]

/-- The codes of the inserted participants are the codes of the reserved rows
consumed by the insert loops, in order. -/
theorem successParts_map_qr (db : DB) (cid prn : Nat) :
    (successParts db cid prn).map (fun q => q.qr_code) =
      ((reserveQrCodes db (actualTotal db cid)).take (successPersons db cid).length).map
        (fun e => e.qr_code) := by
  unfold successParts successInsert
  exact insertLoop_fst_map_qr _ _ _ _ _

/-- Used rows are never keys of the batch update of a successful run. -/
theorem successMapping_lookup_used (db : DB) (cid prn : Nat) (e : PoolEntry)
    (hids : (db.qr_pool.map (fun e => e.id)).Nodup)
    (he : e ∈ db.qr_pool) (hu : e.is_used = true) :
    (successMapping db cid prn).lookup e.id = none := by
  apply lookup_eq_none_of_not_mem
  rw [successMapping_keys]
  intro hmem
  obtain ⟨r, hr, hrid⟩ := List.mem_map.1 hmem
  have hrR : r ∈ reserveQrCodes db (actualTotal db cid) := List.take_subset _ _ hr
  obtain ⟨hrpool, hrused⟩ := mem_reserveQrCodes db _ r hrR
  have : r = e := List.inj_on_of_nodup_map hids hrpool he hrid
  rw [this] at hrused
  rw [hrused] at hu
  exact Bool.false_ne_true hu

/-- Preservation of the pool invariant by a committed successful run, together
with write-once persistence of existing assignments. -/
theorem poolWF_success (db : DB) (cid prn : Nat) (h : PoolWF db) :
    PoolWF (successDB db cid prn) ∧
    ∀ e ∈ db.qr_pool, ∀ p : Nat, e.assigned_to_person_id = some p →
      ∃ e₂ ∈ (successDB db cid prn).qr_pool,
        e₂.id = e.id ∧ e₂.assigned_to_person_id = some p ∧ e₂.is_used = true := by
  obtain ⟨hid, hqr, hun, hpn, hps⟩ := h
  have htake : List.Sublist
      ((reserveQrCodes db (actualTotal db cid)).take (successPersons db cid).length)
      db.qr_pool :=
    (List.take_sublist _ _).trans (reserveQrCodes_sublist db _)
  constructor
  · refine ⟨?_, ?_, ?_, ?_, ?_⟩
    · show ((markUsed db.qr_pool (successMapping db cid prn)).map (fun e => e.id)).Nodup
      rw [markUsed_map_id]; exact hid
    · show ((markUsed db.qr_pool (successMapping db cid prn)).map (fun e => e.qr_code)).Nodup
      rw [markUsed_map_qr]; exact hqr
    · intro x hx hxu
      obtain ⟨e, he, hcase⟩ := mem_markUsed _ _ _ hx
      rcases hcase with ⟨_, hxe⟩ | ⟨pid, _, hxe⟩
      · rw [hxe]; exact hun e he (hxe ▸ hxu)
      · rw [hxe] at hxu; exact absurd hxu (by simp)
    · show ((db.participants ++ successParts db cid prn).map (fun q => q.qr_code)).Nodup
      rw [List.map_append, List.nodup_append]
      refine ⟨hpn, ?_, ?_⟩
      · rw [successParts_map_qr]
        exact List.Nodup.sublist (htake.map _) hqr
      · intro x hxold hxnew
        obtain ⟨q, hq, hqx⟩ := List.mem_map.1 hxold
        obtain ⟨e, he, heq, heu⟩ := hps q hq
        rw [successParts_map_qr] at hxnew
        obtain ⟨r, hr, hrx⟩ := List.mem_map.1 hxnew
        obtain ⟨hrpool, hrused⟩ := mem_reserveQrCodes db _ r (List.take_subset _ _ hr)
        have : e = r := by
          apply List.inj_on_of_nodup_map hqr he hrpool
          rw [heq, hqx, hrx]
        rw [this, hrused] at heu
        exact Bool.false_ne_true heu
    · intro q hq
      rcases List.mem_append.1 hq with hold | hnew
      · obtain ⟨e, he, heq, heu⟩ := hps q hold
        refine ⟨e, ?_, heq, heu⟩
        exact markUsed_not_hit _ _ e he (successMapping_lookup_used db cid prn e hid he heu)
      · have hqc : q.qr_code ∈ (successParts db cid prn).map (fun q => q.qr_code) :=
          List.mem_map.2 ⟨q, hnew, rfl⟩
        rw [successParts_map_qr] at hqc
        obtain ⟨r, hr, hrx⟩ := List.mem_map.1 hqc
        have hrpool : r ∈ db.qr_pool := (mem_reserveQrCodes db _ r (List.take_subset _ _ hr)).1
        have hkey : r.id ∈ (successMapping db cid prn).map Prod.fst := by
          rw [successMapping_keys]
          exact List.mem_map.2 ⟨r, hr, rfl⟩
        obtain ⟨pid, hpid⟩ := Option.isSome_iff_exists.1 (lookup_isSome_of_mem _ _ hkey)
        exact ⟨{ r with is_used := true, assigned_to_person_id := some pid },
          markUsed_hit _ _ r pid hrpool hpid, hrx, rfl⟩
  · intro e he p hp
    have heu : e.is_used = true := by
      cases hu : e.is_used with
      | false => rw [hun e he hu] at hp; exact absurd hp (by simp)
      | true => rfl
    refine ⟨e, ?_, rfl, hp, heu⟩
    exact markUsed_not_hit _ _ e he (successMapping_lookup_used db cid prn e hid he heu)




/-- A pool row that is already assigned persists as itself when nothing
changes. -/
theorem assigned_persists_id (db : DB)
    (h3 : ∀ e ∈ db.qr_pool, e.is_used = false → e.assigned_to_person_id = none) :
    ∀ e ∈ db.qr_pool, ∀ p : Nat, e.assigned_to_person_id = some p →
      ∃ e₂ ∈ db.qr_pool, e₂.id = e.id ∧ e₂.assigned_to_person_id = some p ∧
        e₂.is_used = true := by
  intro e he p hp
  have heu : e.is_used = true := by
    cases hu : e.is_used with
    | false => rw [h3 e he hu] at hp; exact absurd hp (by simp)
    | true => rfl
  exact ⟨e, he, rfl, hp, heu⟩

/-- One attempt (committed or rolled back) preserves the pool invariant and
never re-assigns an already-assigned pool entry. -/
theorem poolWF_step (db : DB) (op : Op) (h : PoolWF db) :
    PoolWF (applyOp db op) ∧
    ∀ e ∈ db.qr_pool, ∀ p : Nat, e.assigned_to_person_id = some p →
      ∃ e₂ ∈ (applyOp db op).qr_pool, e₂.id = e.id ∧
        e₂.assigned_to_person_id = some p ∧ e₂.is_used = true := by
  cases op with
  | interrupted cid prn k =>
      exact ⟨h, assigned_persists_id db h.2.2.1⟩
  | run cid prn =>
      rcases finalApproval_snd_cases db cid prn with hc | hc
      · have heq : applyOp db (Op.run cid prn) = db := hc
        rw [heq]
        exact ⟨h, assigned_persists_id db h.2.2.1⟩
      · have heq : applyOp db (Op.run cid prn) = successDB db cid prn := hc
        rw [heq]
        exact poolWF_success db cid prn h

/-- Any serialized history of attempts preserves the pool invariant; existing
assignments survive the whole history unchanged. -/
theorem poolWF_runSeq (db : DB) (ops : List Op) (h : PoolWF db) :
    PoolWF (runSeq db ops) ∧
    ∀ e ∈ db.qr_pool, ∀ p : Nat, e.assigned_to_person_id = some p →
      ∃ e₂ ∈ (runSeq db ops).qr_pool, e₂.id = e.id ∧
        e₂.assigned_to_person_id = some p ∧ e₂.is_used = true := by
  induction ops generalizing db with
  | nil => exact ⟨h, assigned_persists_id db h.2.2.1⟩
  | cons op ops ih =>
      obtain ⟨h1, hpers⟩ := poolWF_step db op h
      obtain ⟨h2, hpers2⟩ := ih (applyOp db op) h1
      refine ⟨h2, ?_⟩
      intro e he p hp
      obtain ⟨e₂, he₂, hid2, hass2, hused2⟩ := hpers e he p hp
      obtain ⟨e₃, he₃, hid3, hass3, hused3⟩ := hpers2 e₂ he₂ p hass2
      exact ⟨e₃, he₃, hid3.trans hid2, hass3, hused3⟩

/-! ## Ordering lemmas for the query results -/

/-- Keys of a flatMap whose blocks are constant-key and of length at most one
are strictly sorted whenever the outer keys are. -/
theorem pairwise_lt_flatMap {α β : Type} (key : α → Nat) (l : List α)
    (g : α → List β) (keyb : β → Nat)
    (hl : (l.map key).Pairwise (fun x y => x < y))
    (hblock : ∀ a ∈ l, ∀ b ∈ g a, keyb b = key a)
    (hlen : ∀ a ∈ l, (g a).length ≤ 1) :
    ((l.flatMap g).map keyb).Pairwise (fun x y => x < y) := by
  induction l with
  | nil => simp
  | cons a l ih =>
      rw [List.flatMap_cons, List.map_append, List.pairwise_append]
      rw [List.map_cons, List.pairwise_cons] at hl
      refine ⟨?_, ?_, ?_⟩
      · have := hlen a (List.mem_cons_self a l)
        cases hga : g a with
        | nil => simp
        | cons b t =>
            cases t with
            | nil => simp
            | cons b₂ t₂ => rw [hga] at this; simp at this
      · exact ih hl.2 (fun x hx => hblock x (List.mem_cons_of_mem a hx))
          (fun x hx => hlen x (List.mem_cons_of_mem a hx))
      · intro x hx y hy
        obtain ⟨bx, hbx, hbxe⟩ := List.mem_map.1 hx
        obtain ⟨by₁, hby, hbye⟩ := List.mem_map.1 hy
        obtain ⟨a₂, ha₂, hba₂⟩ := List.mem_flatMap.1 hby
        rw [← hbxe, hblock a (List.mem_cons_self a l) bx hbx]
        rw [← hbye, hblock a₂ (List.mem_cons_of_mem a ha₂) by₁ hba₂]
        exact hl.1 (key a₂) (List.mem_map.2 ⟨a₂, ha₂, rfl⟩)

/-- With unique APPROVED applications and unique application ids, a student
has at most one approved-application row. -/
theorem approvedApplications_length_le_one (db : DB) (sid : Nat)
    (hids : (db.applications.map (fun sa => sa.id)).Pairwise (fun x y => x < y))
    (hu : ApprovedAppUnique db) :
    (approvedApplications db sid).length ≤ 1 := by
  have hnd : db.applications.Nodup :=
    List.Nodup.of_map _ (hids.imp (fun hxy => Nat.ne_of_lt hxy))
  cases hfl : approvedApplications db sid with
  | nil => simp
  | cons x t =>
      cases t with
      | nil => simp
      | cons y t₂ =>
          exfalso
          have hndf : (approvedApplications db sid).Nodup := List.Nodup.filter _ hnd
          rw [hfl] at hndf
          have hx : x ∈ approvedApplications db sid := by rw [hfl]; simp
          have hy : y ∈ approvedApplications db sid := by rw [hfl]; simp
          obtain ⟨hx1, hx2⟩ := List.mem_filter.1 hx
          obtain ⟨hy1, hy2⟩ := List.mem_filter.1 hy
          simp only [Bool.and_eq_true, beq_iff_eq] at hx2 hy2
          have : x = y := hu x hx1 y hy1 hx2.2 hy2.2 (hx2.1.trans hy2.1.symm)
          rw [List.nodup_cons] at hndf
          exact hndf.1 (this ▸ List.mem_cons_self y t₂)

/-- Eligible-row student ids are strictly ascending. -/
theorem eligibleRows_ids_sorted (db : DB) (cid : Nat)
    (hs : (db.students.map (fun s => s.id)).Pairwise (fun x y => x < y))
    (hids : (db.applications.map (fun sa => sa.id)).Pairwise (fun x y => x < y))
    (hu : ApprovedAppUnique db) :
    ((eligibleRows db cid).map (fun r => r.1.id)).Pairwise (fun x y => x < y) := by
  unfold eligibleRows
  apply pairwise_lt_flatMap (fun s => s.id)
  · exact hs.sublist ((List.filter_sublist _).map _)
  · intro s _ r hr
    obtain ⟨sa, _, hre⟩ := List.mem_map.1 hr
    rw [← hre]
  · intro s _
    rw [List.length_map]
    exact approvedApplications_length_le_one db s.id hids hu

/-- Every row of the eligibility query satisfies the WHERE clause: college
membership, an APPROVED joined application, and event-table membership. -/
theorem eligibleRows_sound (db : DB) (cid : Nat) :
    ∀ r ∈ eligibleRows db cid,
      r.1 ∈ db.students ∧ r.1.college_id = cid ∧ appearsInEventTables db r.1 = true ∧
      r.2 ∈ db.applications ∧ r.2.student_id = r.1.id ∧ r.2.status = "APPROVED" := by
  intro r hr
  unfold eligibleRows at hr
  obtain ⟨s, hs, hmap⟩ := List.mem_flatMap.1 hr
  obtain ⟨sa, hsa, heq⟩ := List.mem_map.1 hmap
  obtain ⟨hs1, hs2⟩ := List.mem_filter.1 hs
  simp only [Bool.and_eq_true, beq_iff_eq] at hs2
  obtain ⟨hsa1, hsa2⟩ := List.mem_filter.1 hsa
  simp only [Bool.and_eq_true, beq_iff_eq] at hsa2
  rw [← heq]
  exact ⟨hs1, hs2.1, hs2.2, hsa1, hsa2.1, hsa2.2⟩

/-- A student of the table appears in the eligibility result exactly when the
WHERE clause holds for them. -/
theorem mem_eligibleRows_iff (db : DB) (cid : Nat) (s : Student) (hs : s ∈ db.students) :
    (∃ sa, (s, sa) ∈ eligibleRows db cid) ↔
      (s.college_id = cid ∧ appearsInEventTables db s = true ∧
        ∃ sa ∈ db.applications, sa.student_id = s.id ∧ sa.status = "APPROVED") := by
  constructor
  · rintro ⟨sa, hr⟩
    have h := eligibleRows_sound db cid (s, sa) hr
    exact ⟨h.2.1, h.2.2.1, sa, h.2.2.2.1, h.2.2.2.2⟩
  · rintro ⟨hc, hev, sa, hsa, hsid, hst⟩
    refine ⟨sa, ?_⟩
    unfold eligibleRows
    refine List.mem_flatMap.2 ⟨s, List.mem_filter.2 ⟨hs, ?_⟩,
      List.mem_map.2 ⟨sa, List.mem_filter.2 ⟨hsa, ?_⟩, rfl⟩⟩
    · simp [hc, hev]
    · simp [approvedApplications, hsid, hst]

/-- Each eligible student contributes exactly one row: the student ids of the
result are duplicate-free. -/
theorem eligibleRows_ids_nodup (db : DB) (cid : Nat)
    (hs : (db.students.map (fun s => s.id)).Pairwise (fun x y => x < y))
    (hids : (db.applications.map (fun sa => sa.id)).Pairwise (fun x y => x < y))
    (hu : ApprovedAppUnique db) :
    ((eligibleRows db cid).map (fun r => r.1.id)).Nodup :=
  (eligibleRows_ids_sorted db cid hs hids hu).imp (fun hxy => Nat.ne_of_lt hxy)

/-- A list splits into the rows kept and the rows dropped by a filter. -/
theorem length_filter_split {α : Type} (p : α → Bool) (l : List α) :
    l.length = (l.filter p).length + (l.filter (fun x => !p x)).length := by
  induction l with
  | nil => rfl
  | cons x l ih =>
      cases hx : p x <;> simp [List.filter_cons, hx, ih] <;> omega

/-- Key-indexed lookup into a zip with duplicate-free keys. -/
theorem lookup_zip_idx {β : Type} (keys : List Nat) (vals : List β) (i : Nat)
    (hnd : keys.Nodup) (hi : i < keys.length) (hv : i < vals.length) :
    (keys.zip vals).lookup keys[i] = some vals[i] := by
  induction keys generalizing vals i with
  | nil => simp at hi
  | cons k ks ih =>
      cases vals with
      | nil => simp at hv
      | cons v vs =>
          cases i with
          | zero => simp [List.lookup]
          | succ j =>
              have hj : j < ks.length := by simpa using hi
              have hjv : j < vs.length := by simpa using hv
              have hne : ks[j] ≠ k := by
                intro hkj
                exact (List.nodup_cons.1 hnd).1 (hkj ▸ ks.getElem_mem hj)
              simpa [List.lookup, beq_eq_false_iff_ne.2 hne]
                using ih vs j (List.nodup_cons.1 hnd).2 hj hjv

/-- The STEP 10 update flips the flag on the college row the transaction
locked in STEP 1. -/
theorem find?_setApproved (colleges : List College) (cid prn : Nat) (college : College)
    (hf : colleges.find? (fun c => c.id == cid) = some college) :
    (setApproved colleges cid prn).find? (fun c => c.id == cid) =
      some { college with is_final_approved := true, final_approved_by := some prn } := by
  induction colleges with
  | nil => simp at hf
  | cons c cs ih =>
      unfold setApproved
      rw [List.map_cons]
      by_cases hc : c.id = cid
      · rw [List.find?_cons_of_pos _ (by simpa using hc)] at hf
        have hcc : c = college := by simpa using hf
        rw [List.find?_cons_of_pos]
        · rw [if_pos (by simpa using hc), hcc]
        · rw [if_pos (by simpa using hc)]
          simpa using hc
      · rw [List.find?_cons_of_neg _ (by simpa using hc)] at hf
        rw [List.find?_cons_of_neg]
        · exact ih hf
        · rw [if_neg (by simpa using hc)]
          simpa using hc

/-- The reservation returns exactly the requested number of rows whenever the
pool-exhaustion guard does not fire. -/
theorem reserve_length_eq (db : DB) (cid : Nat)
    (hnlt : ¬ ((reserveQrCodes db (actualTotal db cid)).length < actualTotal db cid)) :
    (reserveQrCodes db (actualTotal db cid)).length = actualTotal db cid :=
  Nat.le_antisymm (by simpa [reserveQrCodes] using List.length_take_le _ _)
    (Nat.le_of_not_lt hnlt)

/-! ## Claim theorems -/

/-- C1: along any serialized history of final-approval attempts over a
well-formed pool, each QR pool entry is assigned to at most one participant,
ever: the invariant is preserved (in particular no two participant rows ever
carry the same code value), and an entry once assigned to participant `p`
keeps exactly that assignment, used, for the rest of the history. -/
theorem c1_qr_entry_assigned_at_most_once (db : DB) (ops : List Op) (h : PoolWF db) :
    PoolWF (runSeq db ops) ∧
    ((runSeq db ops).participants.map (fun q => q.qr_code)).Nodup ∧
    (∀ e ∈ db.qr_pool, ∀ p : Nat, e.assigned_to_person_id = some p →
      ∃ e₂ ∈ (runSeq db ops).qr_pool, e₂.id = e.id ∧
        e₂.assigned_to_person_id = some p ∧ e₂.is_used = true) := by
  obtain ⟨h1, h2⟩ := poolWF_runSeq db ops h
  exact ⟨h1, h1.2.2.2.1, h2⟩

/-- Witness for C1 at a concrete database and history. -/
theorem c1_witness :
    PoolWF sampleDB ∧
    PoolWF (runSeq sampleDB [Op.run 1 9, Op.interrupted 1 8 1, Op.run 1 7]) :=
  ⟨by decide,
   (c1_qr_entry_assigned_at_most_once sampleDB
      [Op.run 1 9, Op.interrupted 1 8 1, Op.run 1 7] (by decide)).1⟩

/-- C2: an exception raised at any point of the transaction before COMMIT is
answered by the catch block with ROLLBACK, so the durable state is unchanged:
no participant rows of the attempt exist afterwards and the pool rows are
exactly the old ones. -/
theorem c2_rollback_on_exception (db : DB) (cid prn k : Nat) :
    finalApprovalInterrupted db cid prn k = db ∧
    (finalApprovalInterrupted db cid prn k).participants = db.participants ∧
    (finalApprovalInterrupted db cid prn k).qr_pool = db.qr_pool ∧
    (finalApprovalInterrupted db cid prn k).colleges = db.colleges :=
  ⟨rfl, rfl, rfl, rfl⟩

/-- C5: when fewer unused pool entries exist than participants are to be
inserted, the run aborts with PoolExhausted reporting needed versus available
counts, and the database — participants, pool, colleges — is unchanged. -/
theorem c5_pool_exhausted_aborts (db : DB) (cid prn : Nat) (college : College)
    (hf : db.colleges.find? (fun c => c.id == cid) = some college)
    (hflag : college.is_final_approved = false)
    (hzero : (eligibleRows db cid).length + (activeAccompanists db cid).length ≠ 0)
    (hexh : (db.qr_pool.filter (fun e => !e.is_used)).length < actualTotal db cid) :
    finalApproval db cid prn =
      (.poolExhausted (actualTotal db cid)
        (db.qr_pool.filter (fun e => !e.is_used)).length, db) ∧
    (finalApproval db cid prn).2.participants = db.participants ∧
    (finalApproval db cid prn).2.qr_pool = db.qr_pool ∧
    (finalApproval db cid prn).2.colleges = db.colleges := by
  have hres : (reserveQrCodes db (actualTotal db cid)).length =
      (db.qr_pool.filter (fun e => !e.is_used)).length := by
    simp [reserveQrCodes, List.length_take, Nat.min_eq_right (Nat.le_of_lt hexh)]
  have h := finalApproval_poolExhausted db cid prn college hf hflag hzero (by omega)
  rw [hres] at h
  exact ⟨h, by rw [h], by rw [h], by rw [h]⟩

/-- Witness for C5: one accompanist needs one code but the only pool entry is
used. -/
theorem c5_witness :
    finalApproval exhaustedDB 1 9 = (.poolExhausted 1 0, exhaustedDB) :=
  (c5_pool_exhausted_aborts exhaustedDB 1 9
    { id := 1, is_final_approved := false, final_approved_by := none }
    (by decide) (by decide) (by decide) (by decide)).1

/-- C6: final approval is not idempotent.  A request for an already-approved
college aborts with AlreadyApproved and changes nothing; hence after a
successful call, a second call for the same college returns AlreadyApproved
and leaves the participant table exactly as the first call left it. -/
theorem c6_not_idempotent :
    (∀ (db : DB) (cid prn : Nat) (college : College),
      db.colleges.find? (fun c => c.id == cid) = some college →
      college.is_final_approved = true →
      finalApproval db cid prn = (.alreadyApproved, db)) ∧
    (∀ (db : DB) (cid prn prn₂ a b c : Nat) (db₁ : DB),
      finalApproval db cid prn = (.success a b c, db₁) →
      finalApproval db₁ cid prn₂ = (.alreadyApproved, db₁) ∧
      (finalApproval db₁ cid prn₂).2.participants = db₁.participants) := by
  constructor
  · intro db cid prn college hf hflag
    exact finalApproval_alreadyApproved db cid prn college hf hflag
  · intro db cid prn prn₂ a b c db₁ h
    have hfst : (finalApproval db cid prn).1 = .success a b c := by rw [h]
    have hsnd : (finalApproval db cid prn).2 = db₁ := by rw [h]
    obtain ⟨⟨college, hf, _⟩, _, _, _, _, _⟩ :=
      plan_guards_of_success db cid prn a b c hfst
    have hdb₁ : db₁ = successDB db cid prn := by
      rw [← hsnd]; exact finalApproval_success_db db cid prn a b c hfst
    have hf₁ : db₁.colleges.find? (fun c => c.id == cid) =
        some { college with is_final_approved := true, final_approved_by := some prn } := by
      rw [hdb₁]
      exact find?_setApproved db.colleges cid prn college hf
    have h₂ := finalApproval_alreadyApproved db₁ cid prn₂ _ hf₁ rfl
    exact ⟨h₂, by rw [h₂]⟩

/-- Witness for C6: the second call on the sample database returns
AlreadyApproved with the state unchanged. -/
theorem c6_witness :
    finalApproval (finalApproval sampleDB 1 9).2 1 9 =
      (.alreadyApproved, (finalApproval sampleDB 1 9).2) := by
  have h1 : (finalApproval sampleDB 1 9).1 = .success 2 1 1 := by decide
  have h : finalApproval sampleDB 1 9 = (.success 2 1 1, (finalApproval sampleDB 1 9).2) := by
    rw [← h1]
  exact (c6_not_idempotent.2 sampleDB 1 9 9 2 1 1 (finalApproval sampleDB 1 9).2 h).1

/-- C9 counterexample: the request timer only sends the 504 response; it does
not abort the transaction.  On the sample database the timed-out attempt still
commits three participant rows and sets the lock flag, so a timed-out client
does observe a committed approval — refuting the claim that the transaction
rolls back fully when the timeout fires. -/
theorem c9_counterexample :
    (finalApprovalTimedOut sampleDB 1 9).1 = .timeout504 ∧
    (finalApprovalTimedOut sampleDB 1 9).2.participants.length =
      sampleDB.participants.length + 3 ∧
    ((finalApprovalTimedOut sampleDB 1 9).2.colleges.map
      (fun c => c.is_final_approved)) = [true] :=
  ⟨rfl, by decide, by decide⟩

/-- C9 amended: when the 9-second timer fires, the client receives the 504
response, but the transaction is not cancelled: its effect on the database is
exactly that of the uninterrupted run (it commits if it reaches COMMIT).
A full rollback happens only when the transaction itself raises an exception
before COMMIT, in which case the state is unchanged. -/
theorem c9_timeout_does_not_roll_back (db : DB) (cid prn : Nat) :
    (finalApprovalTimedOut db cid prn).1 = .timeout504 ∧
    (finalApprovalTimedOut db cid prn).2 = (finalApproval db cid prn).2 ∧
    ∀ k, finalApprovalInterrupted db cid prn k = db :=
  ⟨rfl, rfl, fun _ => rfl⟩

/-- C10: a request authenticated as ADMIN or SUB_ADMIN passes the
checkCollegeLock middleware via next() without the colleges table ever being
queried, regardless of any lock state. -/
theorem c10_admin_bypasses_lock (u : AuthUser) (colleges : List College)
    (h : u.role = "ADMIN" ∨ u.role = "SUB_ADMIN") :
    checkCollegeLock (some u) colleges = (.next, false) := by
  unfold checkCollegeLock
  rcases h with h | h <;> simp [h]

/-- Witness for C10: an ADMIN user passes although college 1 is locked. -/
theorem c10_witness :
    checkCollegeLock (some { id := 5, role := "ADMIN", college_id := some 1 })
      lockedDB.colleges = (.next, false) :=
  c10_admin_bypasses_lock _ _ (Or.inl rfl)

/-- C3 counterexample: the student submit-application endpoint performs no
lock check, so a code path mutating a locked college's applications table
exists.  On `lockedDB`, college 1 has `is_final_approved = true`, yet
finalize_application succeeds and inserts a new `student_applications` row
(and its document rows) for a student of that college. -/
theorem c3_counterexample :
    lockedDB.colleges.map (fun c => c.is_final_approved) = [true] ∧
    (finalizeApplication lockedDB 1 1 "s1" 50 uploadsOk).1 = .ok 1 false ∧
    (finalizeApplication lockedDB 1 1 "s1" 50 uploadsOk).2.applications.length =
      lockedDB.applications.length + 1 :=
  ⟨by decide, by decide, by decide⟩

/-- C3 amended: the lock is enforced by the endpoints that check it — the
checkCollegeLock middleware rejects with 403 for any authenticated
non-ADMIN/SUB_ADMIN caller of a locked college, and the assign-events add
action rejects with 403 and no insert — but not by every code path: the
student submit-application endpoint never reads the flag (see the
counterexample), and ADMIN/SUB_ADMIN bypass the middleware. -/
theorem c3_lock_enforced_only_where_checked :
    (∀ (u : AuthUser) (colleges : List College) (cid : Nat) (c : College),
      u.role ≠ "ADMIN" → u.role ≠ "SUB_ADMIN" → u.college_id = some cid →
      colleges.find? (fun c => c.id == cid) = some c → c.is_final_approved = true →
      checkCollegeLock (some u) colleges = (.respond 403, true)) ∧
    (∀ (db : DB) (cid : Nat) (req : AssignRequest) (c : College) (t : Fin 25),
      eventSlugs.lookup req.event_slug = some t →
      req.person_id ≠ 0 →
      (req.person_type = "student" ∨ req.person_type = "accompanist") →
      (req.event_type = "PARTICIPANT" ∨ req.event_type = "ACCOMPANIST") →
      ¬(req.person_type = "accompanist" ∧ req.event_type = "PARTICIPANT") →
      db.colleges.find? (fun c => c.id == cid) = some c →
      c.is_final_approved = true →
      assignEventsAdd db cid req =
        (.err 403 "College has final approval. Cannot modify assignments.", db)) := by
  constructor
  · intro u colleges cid c h1 h2 h3 hf hflag
    have hrole : (u.role == "ADMIN" || u.role == "SUB_ADMIN") = false := by
      simp [h1, h2]
    simp [checkCollegeLock, hrole, h3, hf, hflag]
  · intro db cid req c t hslug hp hpt het hnot hf hflag
    have hb1 : (req.person_id == 0) = false := by simp [hp]
    have hb2 : (req.person_type == "") = false := by
      rcases hpt with h | h <;> simp [h]
    have hb3 : (req.event_type == "") = false := by
      rcases het with h | h <;> simp [h]
    have hb4 : (req.person_type == "student" || req.person_type == "accompanist") = true := by
      rcases hpt with h | h <;> simp [h]
    have hb5 : (req.event_type == "PARTICIPANT" || req.event_type == "ACCOMPANIST") = true := by
      rcases het with h | h <;> simp [h]
    have hb6 : (req.person_type == "accompanist" && req.event_type == "PARTICIPANT") = false := by
      rcases hpt with h | h
      · simp [h]
      · rcases het with h2 | h2
        · exact absurd ⟨h, h2⟩ hnot
        · simp [h2]
    simp [assignEventsAdd, hslug, hb1, hb2, hb3, hb4, hb5, hb6, hf, hflag]

/-- Witness for the amended C3: a MANAGER hits the middleware 403 on the
locked college, and an assign-events add request is rejected with no write. -/
theorem c3_amended_witness :
    checkCollegeLock (some { id := 7, role := "MANAGER", college_id := some 1 })
      lockedDB.colleges = (.respond 403, true) ∧
    assignEventsAdd lockedDB 1
      { event_slug := "mime", person_id := 1, person_type := "student",
        event_type := "PARTICIPANT" } =
      (.err 403 "College has final approval. Cannot modify assignments.", lockedDB) :=
  ⟨c3_lock_enforced_only_where_checked.1
      { id := 7, role := "MANAGER", college_id := some 1 } lockedDB.colleges 1
      { id := 1, is_final_approved := true, final_approved_by := some 9 }
      (by decide) (by decide) rfl (by decide) rfl,
   c3_lock_enforced_only_where_checked.2 lockedDB 1
      { event_slug := "mime", person_id := 1, person_type := "student",
        event_type := "PARTICIPANT" }
      { id := 1, is_final_approved := true, final_approved_by := some 9 }
      10 (by decide) (by decide) (Or.inl rfl) (Or.inl rfl)
      (by simp) (by decide) rfl⟩

/-- C4: a student of the college is represented in the eligibility result iff
they belong to the college, have an APPROVED application, and appear in at
least one of the 25 event tables; every result row satisfies exactly these
conditions; and under the reachable-state invariants each eligible student
contributes exactly one row. -/
theorem c4_eligibility_iff (db : DB) (cid : Nat)
    (hts : TablesSorted db) (hu : ApprovedAppUnique db) :
    (∀ s ∈ db.students,
      ((∃ sa, (s, sa) ∈ eligibleRows db cid) ↔
        (s.college_id = cid ∧ appearsInEventTables db s = true ∧
          ∃ sa ∈ db.applications, sa.student_id = s.id ∧ sa.status = "APPROVED"))) ∧
    (∀ r ∈ eligibleRows db cid,
      r.1 ∈ db.students ∧ r.1.college_id = cid ∧ appearsInEventTables db r.1 = true ∧
      r.2 ∈ db.applications ∧ r.2.student_id = r.1.id ∧ r.2.status = "APPROVED") ∧
    ((eligibleRows db cid).map (fun r => r.1.id)).Nodup :=
  ⟨fun s hs => mem_eligibleRows_iff db cid s hs,
   eligibleRows_sound db cid,
   eligibleRows_ids_nodup db cid hts.1 hts.2.1 hu⟩

/-- Witness for C4: the sample database satisfies the hypotheses; student 3 is
approved but event-unassigned and indeed contributes no row. -/
theorem c4_witness :
    TablesSorted sampleDB ∧ ApprovedAppUnique sampleDB ∧
    ((eligibleRows sampleDB 1).map (fun r => r.1.id)).Nodup :=
  ⟨by decide, by decide, (c4_eligibility_iff sampleDB 1 (by decide) (by decide)).2.2⟩

theorem personView_student (s : Student) (sa : Application) :
    personView (Person.student s sa) = ("STUDENT", some s.id, none, some sa.id) := rfl

theorem personView_accomp (x : Accompanist) :
    personView (Person.accompanist x) = ("ACCOMPANIST", x.student_id, some x.id, none) := rfl

/-- The per-type row count of the insert loops equals the per-kind person
count. -/
theorem insertLoop_count_type (cid prn : Nat) (ps : List Person) (es : List PoolEntry)
    (pid : Nat) (t : String) :
    ((insertLoop cid prn pid ps es).1.filter (fun q => q.person_type == t)).length =
      ((ps.take es.length).filter (fun p => (personView p).1 == t)).length := by
  induction ps generalizing pid es with
  | nil => simp [insertLoop]
  | cons p ps ih =>
      cases es with
      | nil => simp [insertLoop]
      | cons e es =>
          cases p with
          | student s sa =>
              simp only [insertLoop, mkParticipant, List.take_succ_cons, List.filter_cons,
                personView_student]
              cases hb : (("STUDENT" : String) == t) <;>
                simp [List.filter_cons, personView_student, hb, ih]
          | accompanist x =>
              simp only [insertLoop, mkParticipant, List.take_succ_cons, List.filter_cons,
                personView_accomp]
              cases hb : (("ACCOMPANIST" : String) == t) <;>
                simp [List.filter_cons, personView_accomp, hb, ih]

theorem successPersons_length (db : DB) (cid : Nat) :
    (successPersons db cid).length = actualTotal db cid := by
  simp [successPersons, actualTotal]

theorem successPersons_filter_student (db : DB) (cid : Nat) :
    ((successPersons db cid).filter (fun p => (personView p).1 == "STUDENT")).length =
      (eligibleRows db cid).length := by
  unfold successPersons
  rw [List.filter_append, List.length_append]
  have h1 : ((eligibleRows db cid).map (fun r => Person.student r.1 r.2)).filter
      (fun p => (personView p).1 == "STUDENT") =
      (eligibleRows db cid).map (fun r => Person.student r.1 r.2) := by
    apply List.filter_eq_self.2
    intro p hp
    obtain ⟨r, _, hre⟩ := List.mem_map.1 hp
    rw [← hre]; rfl
  have h2 : ((uniqueAccompanistsOf db cid).map Person.accompanist).filter
      (fun p => (personView p).1 == "STUDENT") = [] := by
    rw [List.filter_eq_nil_iff]
    intro p hp
    obtain ⟨x, _, hxe⟩ := List.mem_map.1 hp
    rw [← hxe]
    simp [personView_accomp]
  rw [h1, h2]
  simp

theorem successPersons_filter_accomp (db : DB) (cid : Nat) :
    ((successPersons db cid).filter (fun p => (personView p).1 == "ACCOMPANIST")).length =
      (uniqueAccompanistsOf db cid).length := by
  unfold successPersons
  rw [List.filter_append, List.length_append]
  have h1 : ((eligibleRows db cid).map (fun r => Person.student r.1 r.2)).filter
      (fun p => (personView p).1 == "ACCOMPANIST") = [] := by
    rw [List.filter_eq_nil_iff]
    intro p hp
    obtain ⟨r, _, hre⟩ := List.mem_map.1 hp
    rw [← hre]
    simp [personView_student]
  have h2 : ((uniqueAccompanistsOf db cid).map Person.accompanist).filter
      (fun p => (personView p).1 == "ACCOMPANIST") =
      (uniqueAccompanistsOf db cid).map Person.accompanist := by
    apply List.filter_eq_self.2
    intro p hp
    obtain ⟨x, _, hxe⟩ := List.mem_map.1 hp
    rw [← hxe]; rfl
  rw [h1, h2]
  simp

/-- C8: the deduplication of STEP 5 drops exactly the active accompanists
whose student_id matches an eligible student (null student ids are always
kept), duplicates_removed counts exactly those dropped, and the response
counts are the numbers of rows inserted for each person type. -/
theorem c8_dedup_and_counts (db : DB) (cid prn a b c : Nat)
    (h : (finalApproval db cid prn).1 = .success a b c) :
    a = (eligibleRows db cid).length ∧
    b = (uniqueAccompanistsOf db cid).length ∧
    c = ((activeAccompanists db cid).filter
        (fun x => isDuplicateAccompanist
          ((eligibleRows db cid).map (fun r => r.1.id)) x)).length ∧
    (∀ x ∈ activeAccompanists db cid,
      (x ∉ uniqueAccompanistsOf db cid ↔
        ∃ sid, x.student_id = some sid ∧
          sid ∈ (eligibleRows db cid).map (fun r => r.1.id))) ∧
    (∀ x ∈ activeAccompanists db cid, x.student_id = none →
      x ∈ uniqueAccompanistsOf db cid) ∧
    ((successParts db cid prn).filter (fun q => q.person_type == "STUDENT")).length = a ∧
    ((successParts db cid prn).filter (fun q => q.person_type == "ACCOMPANIST")).length
      = b := by
  obtain ⟨⟨college, hf, hflag⟩, hzero, hlt, ha, hb, hc⟩ :=
    plan_guards_of_success db cid prn a b c h
  have hsplit := length_filter_split
    (fun x => isDuplicateAccompanist ((eligibleRows db cid).map (fun r => r.1.id)) x)
    (activeAccompanists db cid)
  have hmem : ∀ x ∈ activeAccompanists db cid,
      (x ∈ uniqueAccompanistsOf db cid ↔
        isDuplicateAccompanist ((eligibleRows db cid).map (fun r => r.1.id)) x = false) := by
    intro x hx
    unfold uniqueAccompanistsOf
    rw [List.mem_filter]
    simp [hx]
  have hdup : ∀ x : Accompanist,
      (isDuplicateAccompanist ((eligibleRows db cid).map (fun r => r.1.id)) x = true ↔
        ∃ sid, x.student_id = some sid ∧
          sid ∈ (eligibleRows db cid).map (fun r => r.1.id)) := by
    intro x
    cases hsx : x.student_id with
    | none => simp [isDuplicateAccompanist, hsx]
    | some sid => simp [isDuplicateAccompanist, hsx]
  have hres := reserve_length_eq db cid hlt
  have htk : (successPersons db cid).take (reserveQrCodes db (actualTotal db cid)).length =
      successPersons db cid := by
    rw [hres, ← successPersons_length db cid]
    exact List.take_length _
  refine ⟨ha, hb, ?_, ?_, ?_, ?_, ?_⟩
  · rw [hc]
    have huq : (uniqueAccompanistsOf db cid).length =
        ((activeAccompanists db cid).filter
          (fun x => !(isDuplicateAccompanist
            ((eligibleRows db cid).map (fun r => r.1.id)) x))).length := rfl
    omega
  · intro x hx
    rw [hmem x hx, ← hdup x]
    cases isDuplicateAccompanist ((eligibleRows db cid).map (fun r => r.1.id)) x <;> simp
  · intro x hx hnone
    rw [hmem x hx]
    simp [isDuplicateAccompanist, hnone]
  · rw [ha]
    unfold successParts successInsert
    rw [insertLoop_count_type, htk]
    exact successPersons_filter_student db cid
  · rw [hb]
    unfold successParts successInsert
    rw [insertLoop_count_type, htk]
    exact successPersons_filter_accomp db cid

/-- Witness for C8 on the sample database: accompanist 1 is also eligible
student 2 and is dropped, duplicates_removed is 1. -/
theorem c8_witness :
    (finalApproval sampleDB 1 9).1 = .success 2 1 1 ∧
    1 = ((activeAccompanists sampleDB 1).filter
        (fun x => isDuplicateAccompanist
          ((eligibleRows sampleDB 1).map (fun r => r.1.id)) x)).length :=
  ⟨by decide, (c8_dedup_and_counts sampleDB 1 9 2 1 1 (by decide)).2.2.1⟩

/-- Closed forms of the success-path insert loops when the reservation
returned exactly the requested number of rows. -/
theorem successInsert_closed (db : DB) (cid prn : Nat)
    (hres : (reserveQrCodes db (actualTotal db cid)).length = actualTotal db cid) :
    (successParts db cid prn).map (fun q => q.qr_code) =
      (reserveQrCodes db (actualTotal db cid)).map (fun e => e.qr_code) ∧
    (successParts db cid prn).map (fun q => q.id) =
      List.range' db.next_participant_id (actualTotal db cid) ∧
    (successParts db cid prn).map personFields = (successPersons db cid).map personView ∧
    successMapping db cid prn =
      ((reserveQrCodes db (actualTotal db cid)).map (fun e => e.id)).zip
        (List.range' db.next_participant_id (actualTotal db cid)) ∧
    (successParts db cid prn).length = actualTotal db cid := by
  have hp := successPersons_length db cid
  have hmin : min (successPersons db cid).length
      (reserveQrCodes db (actualTotal db cid)).length = actualTotal db cid := by
    rw [hp, hres]; exact Nat.min_self _
  have htkR : (reserveQrCodes db (actualTotal db cid)).take
      (successPersons db cid).length = reserveQrCodes db (actualTotal db cid) :=
    List.take_of_length_le (Nat.le_of_eq (hres.trans hp.symm))
  have htkP : (successPersons db cid).take
      (reserveQrCodes db (actualTotal db cid)).length = successPersons db cid :=
    List.take_of_length_le (Nat.le_of_eq (hp.trans hres.symm))
  refine ⟨?_, ?_, ?_, ?_, ?_⟩
  · unfold successParts successInsert
    rw [insertLoop_fst_map_qr, htkR]
  · unfold successParts successInsert
    rw [insertLoop_fst_map_id, hmin]
  · unfold successParts successInsert
    rw [insertLoop_fst_map_person, htkP]
  · unfold successMapping successInsert
    rw [insertLoop_snd_eq, htkR, hmin]
  · unfold successParts successInsert
    rw [insertLoop_fst_length, hmin]

/-- C7: positional code assignment.  The reserved rows are taken in ascending
pool id; the inserted rows are the eligible students in ascending student id
followed by the deduplicated accompanists in ascending accompanist id; the
i-th inserted row carries the i-th reserved code; the qr_pool_ids mapping is
exactly the pairing of reserved pool ids with the generated participant ids
(a bijection: both key and value columns are duplicate-free, of the common
length); and after commit the i-th reserved pool entry is assigned exactly
the id of the participant row that received its code. -/
theorem c7_positional_assignment (db : DB) (cid prn a b c : Nat)
    (hts : TablesSorted db) (hu : ApprovedAppUnique db)
    (h : (finalApproval db cid prn).1 = .success a b c) :
    ((reserveQrCodes db (actualTotal db cid)).map (fun e => e.id)).Pairwise
        (fun x y => x < y) ∧
    ((eligibleRows db cid).map (fun r => r.1.id)).Pairwise (fun x y => x < y) ∧
    ((uniqueAccompanistsOf db cid).map (fun x => x.id)).Pairwise (fun x y => x < y) ∧
    (successParts db cid prn).map personFields =
      (eligibleRows db cid).map (fun r => personView (Person.student r.1 r.2)) ++
        (uniqueAccompanistsOf db cid).map (fun x => personView (Person.accompanist x)) ∧
    (successParts db cid prn).map (fun q => q.qr_code) =
      (reserveQrCodes db (actualTotal db cid)).map (fun e => e.qr_code) ∧
    (successParts db cid prn).map (fun q => q.id) =
      List.range' db.next_participant_id (actualTotal db cid) ∧
    successMapping db cid prn =
      ((reserveQrCodes db (actualTotal db cid)).map (fun e => e.id)).zip
        (List.range' db.next_participant_id (actualTotal db cid)) ∧
    ((successMapping db cid prn).map Prod.fst).Nodup ∧
    ((successMapping db cid prn).map Prod.snd).Nodup ∧
    (successMapping db cid prn).length = actualTotal db cid ∧
    (successParts db cid prn).length = actualTotal db cid ∧
    (finalApproval db cid prn).2.participants =
      db.participants ++ successParts db cid prn ∧
    (∀ i, i < actualTotal db cid →
      ∀ (hiR : i < (reserveQrCodes db (actualTotal db cid)).length)
        (hiP : i < (successParts db cid prn).length),
      ∃ e₂ ∈ (finalApproval db cid prn).2.qr_pool,
        e₂.id = ((reserveQrCodes db (actualTotal db cid))[i]).id ∧
        e₂.qr_code = ((successParts db cid prn)[i]).qr_code ∧
        e₂.is_used = true ∧
        e₂.assigned_to_person_id = some ((successParts db cid prn)[i]).id) := by
  obtain ⟨⟨college, hf, hflag⟩, hzero, hlt, ha, hb, hc⟩ :=
    plan_guards_of_success db cid prn a b c h
  have hres := reserve_length_eq db cid hlt
  obtain ⟨hq, hid, hperson, hmap, hlen⟩ := successInsert_closed db cid prn hres
  have hdbeq := finalApproval_success_db db cid prn a b c h
  have hRsort : ((reserveQrCodes db (actualTotal db cid)).map (fun e => e.id)).Pairwise
      (fun x y => x < y) :=
    hts.2.2.2.sublist ((reserveQrCodes_sublist db _).map _)
  have hRnodup : ((reserveQrCodes db (actualTotal db cid)).map (fun e => e.id)).Nodup :=
    hRsort.imp (fun hxy => Nat.ne_of_lt hxy)
  have hmfst : (successMapping db cid prn).map Prod.fst =
      (reserveQrCodes db (actualTotal db cid)).map (fun e => e.id) := by
    rw [hmap]
    exact List.map_fst_zip _ _ (by simp [hres])
  have hmsnd : (successMapping db cid prn).map Prod.snd =
      List.range' db.next_participant_id (actualTotal db cid) := by
    rw [hmap]
    exact List.map_snd_zip _ _ (by simp [hres])
  refine ⟨hRsort, eligibleRows_ids_sorted db cid hts.1 hts.2.1 hu,
    hts.2.2.1.sublist (((List.filter_sublist _).trans (List.filter_sublist _)).map _),
    ?_, hq, hid, hmap, ?_, ?_, ?_, hlen, ?_, ?_⟩
  · rw [hperson]
    simp only [successPersons, List.map_append, List.map_map]
    rfl
  · rw [hmfst]; exact hRnodup
  · rw [hmsnd]; exact List.nodup_range' _ _
  · rw [hmap, List.length_zip]
    simp [hres]
  · rw [hdbeq]; rfl
  · intro i hi hiR hiP
    have hpool : (finalApproval db cid prn).2.qr_pool =
        markUsed db.qr_pool (successMapping db cid prn) := by
      rw [hdbeq]; rfl
    have hkey : i < ((reserveQrCodes db (actualTotal db cid)).map (fun e => e.id)).length := by
      simpa using hiR
    have hval : i < (List.range' db.next_participant_id (actualTotal db cid)).length := by
      simpa using hi
    have hlk := lookup_zip_idx ((reserveQrCodes db (actualTotal db cid)).map (fun e => e.id))
      (List.range' db.next_participant_id (actualTotal db cid)) i hRnodup hkey hval
    rw [List.getElem_map] at hlk
    rw [← hmap] at hlk
    have hmemR : (reserveQrCodes db (actualTotal db cid))[i] ∈ db.qr_pool :=
      (mem_reserveQrCodes db _ _ ((reserveQrCodes db (actualTotal db cid)).getElem_mem hiR)).1
    have hqi : ((successParts db cid prn)[i]).qr_code =
        ((reserveQrCodes db (actualTotal db cid))[i]).qr_code := by
      have hiPm : i < ((successParts db cid prn).map (fun q => q.qr_code)).length := by
        simpa using hiP
      have h1 := List.getElem_of_eq hq hiPm
      simpa using h1
    have hpi : ((successParts db cid prn)[i]).id =
        (List.range' db.next_participant_id (actualTotal db cid))[i] := by
      have hiPm : i < ((successParts db cid prn).map (fun q => q.id)).length := by
        simpa using hiP
      have h1 := List.getElem_of_eq hid hiPm
      simpa using h1
    refine ⟨{ (reserveQrCodes db (actualTotal db cid))[i] with
        is_used := true,
        assigned_to_person_id :=
          some ((List.range' db.next_participant_id (actualTotal db cid))[i]) }, ?_, ?_, ?_, rfl, ?_⟩
    · rw [hpool]
      exact markUsed_hit _ _ _ _ hmemR hlk
    · rfl
    · rw [hqi]
    · rw [hpi]

/-- Witness for C7: on the sample database the inserted rows carry exactly the
reserved codes, in order. -/
theorem c7_witness :
    (successParts sampleDB 1 9).map (fun q => q.qr_code) =
      (reserveQrCodes sampleDB (actualTotal sampleDB 1)).map (fun e => e.qr_code) :=
  (c7_positional_assignment sampleDB 1 9 2 1 1 (by decide) (by decide)
    (by decide)).2.2.2.2.1

end VtuFest
